import Mathlib

/-!
Shallow embedding of the audioscripts training-data generation and validation
pipeline, translated from `src/lib/transcription/training-data-exporter.ts`
and `src/lib/transcription/test-utils.ts`.

Strings are modelled by Lean `String` (a list of characters); JavaScript
numbers holding counts, positions and lengths are modelled by `Nat`;
JavaScript `undefined` for optional object fields is modelled by `Option`.
-/

/-- Whitespace characters matched by the JavaScript class `\s` that occur in
this pipeline's data (space, tab, newline, carriage return, form feed,
vertical tab). -/
def isJsWs (c : Char) : Bool :=
  c = ' ' || c = '\t' || c = '\n' || c = '\r' || c = '\x0c' || c = '\x0b'

/-- Drop leading and trailing whitespace from a character list, as
`String.prototype.trim`. -/
def trimChars (l : List Char) : List Char :=
  ((l.dropWhile isJsWs).reverse.dropWhile isJsWs).reverse

/-- JavaScript `s.trim()`. -/
def strTrim (s : String) : String := ⟨trimChars s.data⟩

/-- Collapse every maximal run of whitespace to one single space, as the
JavaScript `text.replace(/\s+/g, ' ')`. -/
def collapseWs : List Char → List Char
  | [] => []
  | [c] => if isJsWs c then [' '] else [c]
  | c :: d :: rest =>
    if isJsWs c && isJsWs d then collapseWs (d :: rest)
    else (if isJsWs c then ' ' else c) :: collapseWs (d :: rest)

/-- The `normalizeText` helper of `validateWordAssignments`
(test-utils.ts line 860): `text.replace(/\s+/g, ' ').trim()`. -/
def normalizeText (s : String) : String := strTrim ⟨collapseWs s.data⟩

/-- JavaScript `s.substring(0, n)`. -/
def strTake (s : String) (n : Nat) : String := ⟨s.data.take n⟩

/-- The four-field marketing segment record of `types.ts` (lines 23-28).
The TypeScript field `"Golden Nugget"` is rendered `goldenNugget`. -/
structure MarketingSegments where
  Hook : String
  Bridge : String
  goldenNugget : String
  WTA : String
deriving DecidableEq

/-- One word-to-segment assignment, from `types.ts` (lines 30-34); the
TypeScript `category` string union is kept as a plain string. -/
structure WordAssignment where
  word : String
  category : String
  position : Nat
deriving DecidableEq

/-- Insert one assignment into a list sorted by ascending `position`
(models the comparator `(a, b) => a.position - b.position`). -/
def insertByPos (a : WordAssignment) : List WordAssignment → List WordAssignment
  | [] => [a]
  | b :: l => if a.position ≤ b.position then a :: b :: l else b :: insertByPos a l

/-- Sort assignments by ascending `position`, modelling the JavaScript
`wordAssignments.sort((a, b) => a.position - b.position)` (test-utils.ts
line 856). -/
def sortByPosition : List WordAssignment → List WordAssignment
  | [] => []
  | a :: l => insertByPos a (sortByPosition l)

/-- Return shape of `validateWordAssignments`. -/
structure AssignmentValidation where
  valid : Bool
  errors : List String
deriving DecidableEq

/-- TranscriptionService.validateWordAssignments (test-utils.ts lines
841-912): reconstruction equality, segment-concatenation equality,
duplicate-position and missing-position checks, each appending one error
string; `valid` is true exactly when no error was appended.  The
category-distribution statistics of lines 897-904 are only logged by the
source and do not touch the result, so they are not modelled. -/
def validateWordAssignments (transcription : String) (marketingSegments : MarketingSegments)
    (wordAssignments : List WordAssignment) : AssignmentValidation :=
  if wordAssignments.isEmpty then
    { valid := false, errors := ["No word assignments provided"] }
  else
    let sortedAssignments := sortByPosition wordAssignments
    let reconstructedTranscript := String.intercalate " " (sortedAssignments.map (fun w => w.word))
    let originalNormalized := normalizeText transcription
    let reconstructedNormalized := normalizeText reconstructedTranscript
    let reconstructionErrors :=
      if originalNormalized ≠ reconstructedNormalized then
        ["Word assignments don't match original transcript. Original: \"" ++
          strTake originalNormalized 100 ++ "...\" Reconstructed: \"" ++
          strTake reconstructedNormalized 100 ++ "...\""]
      else []
    let segmentsConcatenated := String.intercalate " "
      [marketingSegments.Hook, marketingSegments.Bridge, marketingSegments.goldenNugget,
        marketingSegments.WTA]
    let segmentsNormalized := normalizeText segmentsConcatenated
    let segmentErrors :=
      if originalNormalized ≠ segmentsNormalized then
        ["Marketing segments concatenation doesn't match original transcript"]
      else []
    let positions := sortedAssignments.map (fun w => w.position)
    let duplicateErrors :=
      if positions.length ≠ positions.dedup.length then ["Duplicate word positions found"] else []
    let expectedPositions := List.range' 1 wordAssignments.length
    let missingPositions := expectedPositions.filter (fun p => !(positions.contains p))
    let missingErrors :=
      if missingPositions.length > 0 then
        ["Missing word positions: " ++
          String.intercalate ", " (missingPositions.map (fun p => Nat.repr p))]
      else []
    let errors := reconstructionErrors ++ segmentErrors ++ duplicateErrors ++ missingErrors
    { valid := errors.length == 0, errors := errors }

theorem insertByPos_perm (a : WordAssignment) (l : List WordAssignment) :
    List.Perm (insertByPos a l) (a :: l) := by
  induction l with
  | nil => exact List.Perm.refl _
  | cons b t ih =>
    simp only [insertByPos]
    by_cases h : a.position ≤ b.position
    · simp [h]
    · simp only [h, if_false]
      exact List.Perm.trans (ih.cons b) (List.Perm.swap a b t)

theorem sortByPosition_perm (l : List WordAssignment) :
    List.Perm (sortByPosition l) l := by
  induction l with
  | nil => exact List.Perm.refl _
  | cons a t ih =>
    simp only [sortByPosition]
    exact List.Perm.trans (insertByPos_perm a (sortByPosition t)) (ih.cons a)

/-- C3: counterexample.  The claim quantifies over every `MarketingSegments`
value, but `validateWordAssignments` also checks that the concatenated
segments match the transcript: with transcript `"a b"`, a perfect
word-assignment partition (positions 1..2, words joining to the transcript)
and segments whose concatenation is `"x"`, the validator returns
`valid = false` with one segment-concatenation error, not `valid = true`
with no errors. -/
theorem validate_partition_claim_counterexample :
    List.Perm
      (([⟨"a", "Hook", 1⟩, ⟨"b", "WTA", 2⟩] : List WordAssignment).map (fun w => w.position))
      (List.range' 1 2) ∧
    normalizeText (String.intercalate " "
      ((sortByPosition [⟨"a", "Hook", 1⟩, ⟨"b", "WTA", 2⟩]).map (fun w => w.word))) =
      normalizeText "a b" ∧
    validateWordAssignments "a b" ⟨"x", "", "", ""⟩ [⟨"a", "Hook", 1⟩, ⟨"b", "WTA", 2⟩] =
      { valid := false,
        errors := ["Marketing segments concatenation doesn't match original transcript"] } := by
  decide

/-- C3 (amended): for every transcript, segments and nonempty assignment
list whose positions are exactly `1..N` (no gaps, no duplicates), whose
words joined in position order equal the whitespace-normalized transcript,
and whose four segments, joined by single spaces, also normalize to the
transcript, `validateWordAssignments` returns `valid = true` with an empty
error list. -/
theorem validate_partition_complete_valid
    (t : String) (segs : MarketingSegments) (ws : List WordAssignment)
    (hne : ws ≠ [])
    (hpos : List.Perm (ws.map (fun w => w.position)) (List.range' 1 ws.length))
    (hwords : normalizeText (String.intercalate " "
      ((sortByPosition ws).map (fun w => w.word))) = normalizeText t)
    (hsegs : normalizeText (String.intercalate " "
      [segs.Hook, segs.Bridge, segs.goldenNugget, segs.WTA]) = normalizeText t) :
    validateWordAssignments t segs ws = { valid := true, errors := [] } := by
  have hempty : ws.isEmpty = false := by
    cases ws with
    | nil => exact absurd rfl hne
    | cons a l => rfl
  have hposperm : List.Perm ((sortByPosition ws).map (fun w => w.position))
      (List.range' 1 ws.length) :=
    ((sortByPosition_perm ws).map _).trans hpos
  have hnodup : ((sortByPosition ws).map (fun w => w.position)).Nodup :=
    hposperm.nodup_iff.mpr (List.nodup_range' 1 ws.length)
  have hdedup : ((sortByPosition ws).map (fun w => w.position)).dedup =
      (sortByPosition ws).map (fun w => w.position) := List.dedup_eq_self.mpr hnodup
  have hfilter : (List.range' 1 ws.length).filter
      (fun p => !(((sortByPosition ws).map (fun w => w.position)).contains p)) = [] := by
    apply List.filter_eq_nil_iff.mpr
    intro p hp
    have hmem : p ∈ (sortByPosition ws).map (fun w => w.position) := hposperm.mem_iff.mpr hp
    simpa using hmem
  simp only [validateWordAssignments, hempty, Bool.false_eq_true, if_false]
  rw [hwords, hsegs, hdedup, hfilter]
  simp

/-- C3 (amended) witness: the amended theorem applied at a concrete
two-word transcript. -/
theorem validate_partition_complete_valid_witness :
    validateWordAssignments "hello world" ⟨"hello", "", "", "world"⟩
      [⟨"hello", "Hook", 1⟩, ⟨"world", "WTA", 2⟩] = { valid := true, errors := [] } :=
  validate_partition_complete_valid "hello world" ⟨"hello", "", "", "world"⟩
    [⟨"hello", "Hook", 1⟩, ⟨"world", "WTA", 2⟩]
    (by decide) (by decide) (by decide) (by decide)

/-- Whether `p` occurs at the start of `s` (character-level model of the
JavaScript `s.startsWith(p)`, used to classify validator error strings). -/
def strStartsWith (s p : String) : Bool := p.data.isPrefixOf s.data

/-- Whether `pat` occurs as a contiguous substring of the second list
(character-level model of the JavaScript `s.includes(pat)`). -/
def listContainsSub (pat : List Char) : List Char → Bool
  | [] => pat.isEmpty
  | c :: t => pat.isPrefixOf (c :: t) || listContainsSub pat t

theorem strStartsWith_false_of_head (m : String) (h : m.data.head? ≠ some 'M') :
    strStartsWith m "Missing word positions" = false := by
  cases hb : strStartsWith m "Missing word positions"
  · rfl
  · exfalso
    have hpre : "Missing word positions".data <+: m.data :=
      List.isPrefixOf_iff_prefix.mp hb
    obtain ⟨tl, ht⟩ := hpre
    apply h
    rw [← ht]
    rfl

theorem reconstruction_msg_not_missing (x y : String) :
    strStartsWith ("Word assignments don't match original transcript. Original: \"" ++ x ++
      "...\" Reconstructed: \"" ++ y ++ "...\"") "Missing word positions" = false := by
  apply strStartsWith_false_of_head
  intro h
  simp only [String.data_append, List.cons_append, List.head?_cons, Option.some.injEq] at h
  exact absurd h (by decide)

/-- C8: for every transcript, segments and assignment list over positions
`1..10` with position 5 absent (9 entries, no duplicates),
`validateWordAssignments` reports exactly one missing-positions error, and
that error string contains `"5"`.  (The expected contiguous set the source
computes is `1..assignments.length`, i.e. `1..9`, whose only absentee among
the given positions is 5.) -/
theorem validate_missing_position_five
    (t : String) (segs : MarketingSegments) (ws : List WordAssignment)
    (hpos : List.Perm (ws.map (fun w => w.position)) [1, 2, 3, 4, 6, 7, 8, 9, 10]) :
    ((validateWordAssignments t segs ws).errors.filter
      (fun e => strStartsWith e "Missing word positions")) = ["Missing word positions: 5"] ∧
    listContainsSub "5".data "Missing word positions: 5".data = true := by
  refine ⟨?_, by decide⟩
  have hlen : ws.length = 9 := by
    have h := hpos.length_eq
    simpa using h
  have hempty : ws.isEmpty = false := by
    cases ws with
    | nil => simp at hlen
    | cons a l => rfl
  have hperm2 : List.Perm ((sortByPosition ws).map (fun w => w.position))
      ([1, 2, 3, 4, 6, 7, 8, 9, 10] : List Nat) :=
    ((sortByPosition_perm ws).map _).trans hpos
  have hnodup : ((sortByPosition ws).map (fun w => w.position)).Nodup :=
    hperm2.nodup_iff.mpr (by decide)
  have hdedup : ((sortByPosition ws).map (fun w => w.position)).dedup =
      (sortByPosition ws).map (fun w => w.position) := List.dedup_eq_self.mpr hnodup
  have hcont : ∀ p : Nat, ((sortByPosition ws).map (fun w => w.position)).contains p =
      ([1, 2, 3, 4, 6, 7, 8, 9, 10] : List Nat).contains p := by
    intro p
    by_cases h : p ∈ ([1, 2, 3, 4, 6, 7, 8, 9, 10] : List Nat)
    · have h2 : p ∈ (sortByPosition ws).map (fun w => w.position) := hperm2.mem_iff.mpr h
      have e1 : ((sortByPosition ws).map (fun w => w.position)).contains p = true := by
        simpa using h2
      have e2 : ([1, 2, 3, 4, 6, 7, 8, 9, 10] : List Nat).contains p = true := by simpa using h
      rw [e1, e2]
    · have h2 : p ∉ (sortByPosition ws).map (fun w => w.position) :=
        fun hh => h (hperm2.mem_iff.mp hh)
      have e1 : ((sortByPosition ws).map (fun w => w.position)).contains p = false := by
        simpa using h2
      have e2 : ([1, 2, 3, 4, 6, 7, 8, 9, 10] : List Nat).contains p = false := by simpa using h
      rw [e1, e2]
  have hfilter : (List.range' 1 ws.length).filter
      (fun p => !(((sortByPosition ws).map (fun w => w.position)).contains p)) = [5] := by
    rw [hlen]
    rw [List.filter_congr (fun a _ => by rw [hcont a])]
    decide
  simp only [validateWordAssignments, hempty, Bool.false_eq_true, if_false]
  rw [hdedup, hfilter]
  simp only [ne_eq, not_true_eq_false, if_false, List.length_cons, List.length_nil,
    Nat.zero_lt_succ, if_true, gt_iff_lt, Nat.lt_irrefl]
  by_cases h1 : normalizeText t ≠ normalizeText (String.intercalate " "
      ((sortByPosition ws).map (fun w => w.word))) <;>
    by_cases h2 : normalizeText t ≠ normalizeText (String.intercalate " "
      [segs.Hook, segs.Bridge, segs.goldenNugget, segs.WTA]) <;>
    simp [h1, h2, reconstruction_msg_not_missing] <;> decide

/-- C8 witness: the theorem applied to a concrete 9-entry assignment list
with positions 1,2,3,4,6,7,8,9,10. -/
theorem validate_missing_position_five_witness :
    ((validateWordAssignments "x" ⟨"", "", "", ""⟩
      [⟨"a", "Hook", 1⟩, ⟨"b", "Hook", 2⟩, ⟨"c", "Hook", 3⟩, ⟨"d", "Hook", 4⟩,
        ⟨"e", "Hook", 6⟩, ⟨"f", "Hook", 7⟩, ⟨"g", "Hook", 8⟩, ⟨"h", "Hook", 9⟩,
        ⟨"i", "Hook", 10⟩]).errors.filter
      (fun e => strStartsWith e "Missing word positions")) = ["Missing word positions: 5"] ∧
    listContainsSub "5".data "Missing word positions: 5".data = true :=
  validate_missing_position_five "x" ⟨"", "", "", ""⟩
    [⟨"a", "Hook", 1⟩, ⟨"b", "Hook", 2⟩, ⟨"c", "Hook", 3⟩, ⟨"d", "Hook", 4⟩,
      ⟨"e", "Hook", 6⟩, ⟨"f", "Hook", 7⟩, ⟨"g", "Hook", 8⟩, ⟨"h", "Hook", 9⟩,
      ⟨"i", "Hook", 10⟩] (by decide)

/-- Value returned by `TranscriptionService.parseMarketingResponse`
(test-utils.ts lines 596-806): a transcript, four marketing segments, and
optionally the word assignments (absent on every manual-extraction path). -/
structure ParsedResponse where
  transcription : String
  marketingSegments : MarketingSegments
  wordAssignments : Option (List WordAssignment)
deriving DecidableEq

/-- Outcomes of the regular-expression matches that `parseMarketingResponse`
computes over the raw response text.  Each field holds the captures of the
corresponding source regex (`none` when that regex does not match the
response).  The parser's fallback control flow is a function of these
outcomes, so the embedding takes them as input instead of re-implementing
the JavaScript regex engine; the claims under study constrain exactly these
outcomes ("no JSON object and no recognizable field patterns"). -/
structure ResponseMatches where
  /-- JSON object candidate found by one of the three extraction methods of
  lines 644-667 (code block, cleaned response, original response).  Every
  method requires a `\x7b` character, so a response with no JSON object
  yields `none`. -/
  jsonString : Option String
  /-- Result of the JSON.parse branch of lines 669-728 when it returns;
  `none` when that branch falls through to manual extraction (it is never
  entered when `jsonString` is `none`). -/
  jsonBranch : Option ParsedResponse
  /-- Group-1 captures of the three transcription patterns of lines 734-738,
  in order. -/
  transcriptionCaptures : List (Option String)
  /-- Capture of the transcription-section regex of line 753. -/
  transcriptionSection : Option String
  /-- Captures (group 1, group 2) of the Hook regex of line 765. -/
  hook : Option (Option String × Option String)
  /-- Captures of the Bridge regex of line 766. -/
  bridge : Option (Option String × Option String)
  /-- Captures of the Golden Nugget regex of line 767. -/
  nugget : Option (Option String × Option String)
  /-- Captures of the WTA regex of line 768. -/
  wta : Option (Option String × Option String)
  /-- Capture of the JSON-style Hook regex of line 814 used by
  reconstructTranscriptionFromSegments. -/
  reconHook : Option String
  /-- Capture of the JSON-style Bridge regex of line 815. -/
  reconBridge : Option String
  /-- Capture of the JSON-style Golden Nugget regex of line 816. -/
  reconNugget : Option String
  /-- Capture of the JSON-style WTA regex of line 817. -/
  reconWta : Option String

/-- First successful capture among the ordered transcription patterns
(the JavaScript loop of lines 741-748 breaks at the first match). -/
def firstCapture : List (Option String) → Option String
  | [] => none
  | some s :: _ => some s
  | none :: rest => firstCapture rest

/-- JavaScript `a || b` on strings: the empty string is falsy. -/
def jsOrStr (a b : String) : String := if a = "" then b else a

/-- One segment of the manual extraction (lines 770-775):
`m ? (m[1] || m[2] || '').trim() : 'Not Present'`. -/
def segmentValue : Option (Option String × Option String) → String
  | some (g1, g2) => strTrim (jsOrStr (g1.getD "") (g2.getD ""))
  | none => "Not Present"

/-- TranscriptionService.reconstructTranscriptionFromSegments (lines
811-836): join the non-blank segment fragments with single spaces, or
return the fixed failure sentinel when nothing was recovered. -/
def reconstructTranscriptionFromSegments (m : ResponseMatches) : String :=
  let segments := ([m.reconHook.getD "", m.reconBridge.getD "", m.reconNugget.getD "",
    m.reconWta.getD ""]).filter (fun s => (strTrim s).length > 0)
  if segments.length > 0 then strTrim (String.intercalate " " segments)
  else "Transcription extraction failed - unable to parse response"

/-- The manual-extraction tail of parseMarketingResponse (lines 730-782):
take the first transcription capture, else the section capture, else
reconstruct from segment fragments; segments default to "Not Present". -/
def manualExtraction (m : ResponseMatches) : ParsedResponse :=
  let fromPatterns := match firstCapture m.transcriptionCaptures with
    | some s => strTrim s
    | none => ""
  let transcription := if fromPatterns = "" then
      match m.transcriptionSection with
      | some s => strTrim s
      | none => reconstructTranscriptionFromSegments m
    else fromPatterns
  { transcription := transcription,
    marketingSegments := {
      Hook := segmentValue m.hook,
      Bridge := segmentValue m.bridge,
      goldenNugget := segmentValue m.nugget,
      WTA := segmentValue m.wta },
    wordAssignments := none }

/-- TranscriptionService.parseMarketingResponse as a function of its match
outcomes: return the JSON-branch result when a JSON object was found and
that branch succeeded, otherwise fall back to manual extraction. -/
def parseMarketingResponse (m : ResponseMatches) : ParsedResponse :=
  match m.jsonString, m.jsonBranch with
  | some _, some r => r
  | _, _ => manualExtraction m

/-- The catch handler of parseMarketingResponse (lines 784-805): only an
unexpected exception yields the "Parsing Error" segment sentinels, with the
transcription taken from the last-resort regex of line 790 or a distinct
failure string.  No regular control path reaches it; it is recorded here to
document where the "Parsing Error" value lives in the source. -/
def parseCatchFallback (lastResort : Option String) : ParsedResponse :=
  { transcription := lastResort.getD "Parsing failed - unable to extract transcription",
    marketingSegments := {
      Hook := "Parsing Error",
      Bridge := "Parsing Error",
      goldenNugget := "Parsing Error",
      WTA := "Parsing Error" },
    wordAssignments := none }

theorem firstCapture_eq_none (l : List (Option String)) (h : ∀ c ∈ l, c = none) :
    firstCapture l = none := by
  induction l with
  | nil => rfl
  | cons c rest ih =>
    cases c with
    | none => exact ih (fun x hx => h x (List.mem_cons_of_mem _ hx))
    | some s => exact absurd (h (some s) (List.mem_cons_self _ _)) (by simp)

/-- C5: counterexample.  When every match fails (no JSON object, no field
patterns), parseMarketingResponse returns the failure-sentinel transcription
but segments equal to "Not Present", not "Parsing Error" as the claim
states; "Parsing Error" is produced only by the exception handler. -/
theorem parse_unrecoverable_counterexample :
    parseMarketingResponse
      { jsonString := none, jsonBranch := none, transcriptionCaptures := [none, none, none],
        transcriptionSection := none, hook := none, bridge := none, nugget := none,
        wta := none, reconHook := none, reconBridge := none, reconNugget := none,
        reconWta := none } =
      { transcription := "Transcription extraction failed - unable to parse response",
        marketingSegments := {
          Hook := "Not Present",
          Bridge := "Not Present",
          goldenNugget := "Not Present",
          WTA := "Not Present" },
        wordAssignments := none } ∧
    ("Not Present" : String) ≠ "Parsing Error" := by
  decide

/-- C5 (amended): for every response on which neither a JSON object nor any
transcription or segment field pattern matches, parseMarketingResponse
returns the fixed failure sentinel "Transcription extraction failed -
unable to parse response" as the transcription and a segments record whose
four fields all equal "Not Present" (the "Parsing Error" sentinel appears
only in the exception handler, which no such input reaches). -/
theorem parse_unrecoverable_not_present
    (m : ResponseMatches)
    (hjson : m.jsonString = none)
    (htrans : ∀ c ∈ m.transcriptionCaptures, c = none)
    (hsection : m.transcriptionSection = none)
    (hhook : m.hook = none) (hbridge : m.bridge = none)
    (hnugget : m.nugget = none) (hwta : m.wta = none)
    (hrh : m.reconHook = none) (hrb : m.reconBridge = none)
    (hrn : m.reconNugget = none) (hrw : m.reconWta = none) :
    parseMarketingResponse m =
      { transcription := "Transcription extraction failed - unable to parse response",
        marketingSegments := {
          Hook := "Not Present",
          Bridge := "Not Present",
          goldenNugget := "Not Present",
          WTA := "Not Present" },
        wordAssignments := none } := by
  have hfc : firstCapture m.transcriptionCaptures = none :=
    firstCapture_eq_none _ htrans
  simp [parseMarketingResponse, hjson, manualExtraction, hfc, hsection, segmentValue,
    hhook, hbridge, hnugget, hwta, reconstructTranscriptionFromSegments, hrh, hrb, hrn, hrw]
  decide

/-- C5 (amended) witness: the amended theorem applied to the all-failing
match outcome with two pattern slots recorded. -/
theorem parse_unrecoverable_not_present_witness :
    parseMarketingResponse
      { jsonString := none, jsonBranch := none, transcriptionCaptures := [none, none],
        transcriptionSection := none, hook := none, bridge := none, nugget := none,
        wta := none, reconHook := none, reconBridge := none, reconNugget := none,
        reconWta := none } =
      { transcription := "Transcription extraction failed - unable to parse response",
        marketingSegments := {
          Hook := "Not Present",
          Bridge := "Not Present",
          goldenNugget := "Not Present",
          WTA := "Not Present" },
        wordAssignments := none } :=
  parse_unrecoverable_not_present _ rfl (by decide) rfl rfl rfl rfl rfl rfl rfl rfl rfl

/-- The optional engagement metadata of a TranscriptionResult
(types.ts lines 55-60). -/
structure ResultMetadata where
  viewCount : Option Nat
  likeCount : Option Nat
  quality : Option String
  fileSize : Option Nat
deriving DecidableEq

/-- The transcription collaborator's result record (types.ts lines 43-61);
fields the exporter never reads (`visualDescription`, `scriptTemplate`) are
omitted. -/
structure TranscriptionResult where
  videoId : String
  videoUrl : String
  platform : String
  transcription : String
  marketingSegments : Option MarketingSegments
  wordAssignments : Option (List WordAssignment)
  processingTime : Nat
  success : Bool
  error : Option String
  metadata : Option ResultMetadata
deriving DecidableEq

/-- A generalized script template (types.ts lines 36-41); the exporter
passes it around but never reads its fields. -/
structure ScriptTemplate where
  hook : String
  bridge : String
  nugget : String
  wta : String
deriving DecidableEq

/-- Provenance metadata of a training example
(training-data-exporter.ts lines 6-15). -/
structure ExampleMetadata where
  source : String
  videoId : Option String
  platform : Option String
  viewCount : Option Nat
  likeCount : Option Nat
  topic : Option String
  templateUsed : Option Bool
  processingTime : Option Nat
deriving DecidableEq

/-- One (input, output) training example (training-data-exporter.ts
lines 3-16). -/
structure TrainingExample where
  input : String
  output : String
  metadata : Option ExampleMetadata
deriving DecidableEq

/-- The summary block of a TrainingDataset (lines 20-28). -/
structure DatasetSummary where
  totalExamples : Nat
  originalExamples : Nat
  syntheticExamples : Nat
  platforms : List String
  topics : List String
  avgViewCount : Option Nat
  avgLikeCount : Option Nat
deriving DecidableEq

/-- The metadata block of a TrainingDataset (lines 29-34); the optional
creator and platform fields are never set by the exporter. -/
structure DatasetMetadata where
  createdAt : String
  description : String
deriving DecidableEq

/-- A full training dataset (lines 18-35). -/
structure TrainingDataset where
  examples : List TrainingExample
  summary : DatasetSummary
  metadata : DatasetMetadata
deriving DecidableEq

/-- The options record of generateTrainingDataset (lines 37-45); a `none`
field stands for a JavaScript `undefined`, defaulted inside the function. -/
structure ExportOptions where
  includeMetadata : Option Bool := none
  includeOriginalTranscriptions : Option Bool := none
  includeSyntheticScripts : Option Bool := none
  syntheticTopics : Option (List String) := none
  maxExamplesPerVideo : Option Nat := none
  minViewCount : Option Nat := none
  format : Option String := none
deriving DecidableEq

/-- A pre-generated synthetic script handed to the exporter
(the `{topic, script}` pairs of line 72). -/
structure SyntheticScript where
  topic : String
  script : MarketingSegments
deriving DecidableEq

/-- Lowercase each character, as String.prototype.toLowerCase on the ASCII
range the taxonomy keywords live in. -/
def strToLower (s : String) : String := ⟨s.data.map Char.toLower⟩

/-- Accumulator pass of `splitWs` below. -/
def splitWsAux : List Char → List Char → List String
  | [], acc => if acc.isEmpty then [] else [⟨acc.reverse⟩]
  | c :: rest, acc =>
    if isJsWs c then
      if acc.isEmpty then splitWsAux rest [] else ⟨acc.reverse⟩ :: splitWsAux rest []
    else splitWsAux rest (c :: acc)

/-- Split into maximal nonempty runs of non-whitespace, modelling the
JavaScript `content.split(/\s+/)`.  (JavaScript also yields an empty
boundary token when the text starts or ends with whitespace; an empty
token contains no keyword, so it never contributes to the scores computed
from this list.) -/
def splitWs (s : String) : List String := splitWsAux s.data []

/-- The fixed topic taxonomy of extractTopicFromContent
(training-data-exporter.ts lines 311-320), in object-literal insertion
order, which is the iteration order of `Object.entries`. -/
def topicKeywords : List (String × List String) :=
  [("productivity", ["productive", "efficiency", "time", "work", "focus"]),
   ("fitness", ["workout", "exercise", "gym", "health", "fitness"]),
   ("business", ["business", "entrepreneur", "money", "success", "growth"]),
   ("social media", ["content", "followers", "engagement", "viral", "social"]),
   ("personal development", ["mindset", "habits", "goals", "motivation", "self"]),
   ("technology", ["tech", "app", "digital", "online", "software"]),
   ("relationships", ["relationship", "dating", "love", "communication"]),
   ("creativity", ["creative", "art", "design", "inspiration", "ideas"])]

/-- Score of one topic: for each seed keyword, count the tokens that contain
it as a substring, and sum (the `reduce` of lines 327-329). -/
def keywordScore (words : List String) (keywords : List String) : Nat :=
  keywords.foldl
    (fun acc kw => acc + (words.filter (fun w => listContainsSub kw.data w.data)).length) 0

/-- TrainingDataExporter.extractTopicFromContent (lines 306-338): lowercase
and whitespace-tokenize, score every taxonomy topic, and keep the first
topic whose score strictly exceeds the best so far, starting from
("general advice", 0). -/
def extractTopicFromContent (content : String) : String :=
  let words := splitWs (strToLower content)
  (topicKeywords.foldl
    (fun best tk =>
      let score := keywordScore words tk.2
      if score > best.2 then (tk.1, score) else best)
    ("general advice", 0)).1

/-- The four segments joined with single spaces and trimmed (the
`fullScript` template literal of lines 174 and 284). -/
def fullScriptOf (segments : MarketingSegments) : String :=
  strTrim (segments.Hook ++ " " ++ segments.Bridge ++ " " ++ segments.goldenNugget ++ " " ++
    segments.WTA)

/-- The fixed input-prompt template of lines 178 and 285. -/
def scriptInput (topic : String) : String :=
  "Write a compelling short-form video script about " ++ topic ++
    " that follows the Hook-Bridge-Golden Nugget-WTA structure for maximum engagement."

/-- TrainingDataExporter.createOriginalTrainingExample (lines 169-199).
The source reads `result.marketingSegments!` (non-null assertion) because
the caller filters for presence; the embedding defaults to empty segments
on the impossible branch. -/
def createOriginalTrainingExample (result : TranscriptionResult) (includeMetadata : Bool) :
    TrainingExample :=
  let segments := result.marketingSegments.getD ⟨"", "", "", ""⟩
  let fullScript := fullScriptOf segments
  let topic := extractTopicFromContent fullScript
  { input := scriptInput topic,
    output := fullScript,
    metadata := if includeMetadata then
      some { source := "original",
             videoId := some result.videoId,
             platform := some result.platform,
             viewCount := result.metadata.bind (fun md => md.viewCount),
             likeCount := result.metadata.bind (fun md => md.likeCount),
             topic := some topic,
             templateUsed := some false,
             processingTime := some result.processingTime }
      else none }

/-- TrainingDataExporter.createSyntheticTrainingExample (lines 278-301).
The `template` parameter mirrors the source's third argument (`templates[0]`,
possibly undefined, hence an Option); the source's body never reads it. -/
def createSyntheticTrainingExample (topic : String) (script : MarketingSegments)
    (template : Option ScriptTemplate) (includeMetadata : Bool) : TrainingExample :=
  let fullScript := fullScriptOf script
  { input := scriptInput topic,
    output := fullScript,
    metadata := if includeMetadata then
      some { source := "synthetic",
             videoId := none,
             platform := none,
             viewCount := none,
             likeCount := none,
             topic := some topic,
             templateUsed := some true,
             processingTime := none }
      else none }

/-- Insertion-ordered set accumulation: JavaScript `Set.prototype.add`
observed through `Array.from`. -/
def setAdd (l : List String) (x : String) : List String := if x ∈ l then l else l ++ [x]

/-- JavaScript `Math.round(a / b)` for natural `a` and `b` (round half up). -/
def jsRoundDiv (a b : Nat) : Nat := (2 * a + b) / (2 * b)

/-- The success/segments/min-view-count filter of lines 98-102:
`result.success && result.marketingSegments && (result.metadata?.viewCount || 0) >= minViewCount`. -/
def filterValidTranscriptions (results : List TranscriptionResult) (minViewCount : Nat) :
    List TranscriptionResult :=
  results.filter (fun r => r.success && r.marketingSegments.isSome &&
    decide (minViewCount ≤ (r.metadata.bind (fun md => md.viewCount)).getD 0))

/-- JavaScript `e.metadata?.source === s`. -/
def metadataSourceIs (e : TrainingExample) (s : String) : Bool :=
  match e.metadata with
  | some md => md.source == s
  | none => false

/-- TrainingDataExporter.generateTrainingDataset (lines 69-164).  The
clock reads (`Date.now()`, `new Date().toISOString()`) feed only the
`createdAt` stamp, modelled as the explicit `createdAt` argument; console
logging is dropped.  The source accumulates `examples`, the platform and
topic sets and the view/like running sums in two imperative loops (lines
107-140); the embedding expresses each accumulator as its own map/fold
over the same sequence, and keeps the running view/like sums as the list
of contributing values (`if (result.metadata?.viewCount)` admits a value
exactly when it is present and nonzero, JavaScript truthiness). -/
def generateTrainingDataset (transcriptionResults : List TranscriptionResult)
    (templates : List ScriptTemplate) (syntheticScripts : List SyntheticScript)
    (options : ExportOptions) (createdAt : String) : TrainingDataset :=
  let includeMetadata := options.includeMetadata.getD true
  let includeOriginalTranscriptions := options.includeOriginalTranscriptions.getD true
  let includeSyntheticScripts := options.includeSyntheticScripts.getD true
  let minViewCount := options.minViewCount.getD 0
  let validTranscriptions := filterValidTranscriptions transcriptionResults minViewCount
  let originalExamplesList :=
    if includeOriginalTranscriptions then
      validTranscriptions.map (fun r => createOriginalTrainingExample r includeMetadata)
    else []
  let platforms :=
    if includeOriginalTranscriptions then
      validTranscriptions.foldl (fun acc r => setAdd acc r.platform) []
    else []
  let viewCounts :=
    if includeOriginalTranscriptions then
      (validTranscriptions.filterMap (fun r => r.metadata.bind (fun md => md.viewCount))).filter
        (fun v => v != 0)
    else []
  let likeCounts :=
    if includeOriginalTranscriptions then
      (validTranscriptions.filterMap (fun r => r.metadata.bind (fun md => md.likeCount))).filter
        (fun v => v != 0)
    else []
  let syntheticExamplesList :=
    if includeSyntheticScripts && !syntheticScripts.isEmpty then
      syntheticScripts.map (fun s =>
        createSyntheticTrainingExample s.topic s.script templates.head? includeMetadata)
    else []
  let topics :=
    if includeSyntheticScripts && !syntheticScripts.isEmpty then
      syntheticScripts.foldl (fun acc s => setAdd acc s.topic) []
    else []
  let examples := originalExamplesList ++ syntheticExamplesList
  let originalCount := (examples.filter (fun e => metadataSourceIs e "original")).length
  let syntheticCount := (examples.filter (fun e => metadataSourceIs e "synthetic")).length
  { examples := examples,
    summary := {
      totalExamples := examples.length,
      originalExamples := originalCount,
      syntheticExamples := syntheticCount,
      platforms := platforms,
      topics := topics,
      avgViewCount := if viewCounts.length > 0 then
          some (jsRoundDiv viewCounts.sum viewCounts.length)
        else none,
      avgLikeCount := if likeCounts.length > 0 then
          some (jsRoundDiv likeCounts.sum likeCounts.length)
        else none },
    metadata := {
      createdAt := createdAt,
      description := "Training dataset with " ++ Nat.repr examples.length ++ " examples (" ++
        Nat.repr originalCount ++ " original + " ++ Nat.repr syntheticCount ++
        " synthetic)" } }

/-- A successful transcription result used as concrete input by several
witnesses and counterexamples. -/
def sampleResult : TranscriptionResult :=
  { videoId := "v1", videoUrl := "u1", platform := "tiktok", transcription := "a b c d",
    marketingSegments := some ⟨"a", "b", "c", "d"⟩, wordAssignments := none,
    processingTime := 5, success := true, error := none,
    metadata := some {
      viewCount := some 1000,
      likeCount := some 10,
      quality := none,
      fileSize := none } }


theorem foldl_setAdd_nodup {β : Type} (g : β → String) (l : List β) (acc : List String)
    (h : acc.Nodup) : (l.foldl (fun a b => setAdd a (g b)) acc).Nodup := by
  induction l generalizing acc with
  | nil => exact h
  | cons b t ih =>
    apply ih
    unfold setAdd
    by_cases hm : g b ∈ acc
    · simpa [hm] using h
    · simp only [hm, if_false]
      refine List.Nodup.append h (List.nodup_singleton _) ?_
      intro x hx hx2
      simp only [List.mem_singleton] at hx2
      subst hx2
      exact hm hx

theorem mem_foldl_setAdd {β : Type} (g : β → String) (l : List β) (acc : List String)
    (y : String) :
    y ∈ l.foldl (fun a b => setAdd a (g b)) acc ↔ y ∈ acc ∨ y ∈ l.map g := by
  induction l generalizing acc with
  | nil => simp
  | cons b t ih =>
    simp only [List.foldl_cons, ih, List.map_cons, List.mem_cons]
    unfold setAdd
    by_cases hm : g b ∈ acc
    · simp only [hm, if_true]
      constructor
      · rintro (h | h)
        · exact Or.inl h
        · exact Or.inr (Or.inr h)
      · rintro (h | rfl | h)
        · exact Or.inl h
        · exact Or.inl hm
        · exact Or.inr h
    · simp only [hm, if_false, List.mem_append, List.mem_singleton]
      tauto

theorem sourceIs_create_original (r : TranscriptionResult) :
    metadataSourceIs (createOriginalTrainingExample r true) "original" = true := rfl

theorem sourceIs_create_original_synth (r : TranscriptionResult) :
    metadataSourceIs (createOriginalTrainingExample r true) "synthetic" = false := rfl

theorem sourceIs_create_synthetic (topic : String) (script : MarketingSegments)
    (tpl : Option ScriptTemplate) :
    metadataSourceIs (createSyntheticTrainingExample topic script tpl true) "synthetic" = true := rfl

theorem sourceIs_create_synthetic_orig (topic : String) (script : MarketingSegments)
    (tpl : Option ScriptTemplate) :
    metadataSourceIs (createSyntheticTrainingExample topic script tpl true) "original" = false := rfl

theorem filter_map_original_count (vs : List TranscriptionResult) :
    ((vs.map (fun r => createOriginalTrainingExample r true)).filter
      (fun e => metadataSourceIs e "original")).length = vs.length := by
  induction vs with
  | nil => rfl
  | cons r t ih => simpa [List.filter_cons, sourceIs_create_original] using ih

theorem filter_map_original_synth_count (vs : List TranscriptionResult) :
    ((vs.map (fun r => createOriginalTrainingExample r true)).filter
      (fun e => metadataSourceIs e "synthetic")).length = 0 := by
  induction vs with
  | nil => rfl
  | cons r t ih => simp [List.filter_cons, sourceIs_create_original_synth, ih]

theorem filter_map_synthetic_count (ss : List SyntheticScript) (tpl : Option ScriptTemplate) :
    ((ss.map (fun s => createSyntheticTrainingExample s.topic s.script tpl true)).filter
      (fun e => metadataSourceIs e "synthetic")).length = ss.length := by
  induction ss with
  | nil => rfl
  | cons s t ih => simpa [List.filter_cons, sourceIs_create_synthetic] using ih

theorem filter_map_synthetic_orig_count (ss : List SyntheticScript) (tpl : Option ScriptTemplate) :
    ((ss.map (fun s => createSyntheticTrainingExample s.topic s.script tpl true)).filter
      (fun e => metadataSourceIs e "original")).length = 0 := by
  induction ss with
  | nil => rfl
  | cons s t ih => simp [List.filter_cons, sourceIs_create_synthetic_orig, ih]

/-- C1: counterexample.  With `includeMetadata = false` the examples carry
no metadata, so the source's `metadata?.source` filters count nothing:
one valid transcription yields `totalExamples = 1` but
`originalExamples + syntheticExamples = 0`. -/
theorem generate_counts_claim_counterexample :
    (generateTrainingDataset [sampleResult] [] [] { includeMetadata := some false }
      "t").summary.totalExamples = 1 ∧
    (generateTrainingDataset [sampleResult] [] [] { includeMetadata := some false }
        "t").summary.originalExamples +
      (generateTrainingDataset [sampleResult] [] [] { includeMetadata := some false }
        "t").summary.syntheticExamples = 0 := by
  decide

/-- C1 (amended): for every input, `summary.totalExamples` equals
`examples.length`; and whenever `includeMetadata` is not explicitly false
(so the default `true` applies), `summary.originalExamples +
summary.syntheticExamples = summary.totalExamples`. -/
theorem generate_totalExamples_and_counts (results : List TranscriptionResult)
    (templates : List ScriptTemplate) (synth : List SyntheticScript)
    (options : ExportOptions) (createdAt : String) :
    (generateTrainingDataset results templates synth options createdAt).summary.totalExamples =
      (generateTrainingDataset results templates synth options createdAt).examples.length ∧
    (options.includeMetadata ≠ some false →
      (generateTrainingDataset results templates synth options createdAt).summary.originalExamples +
        (generateTrainingDataset results templates synth options createdAt).summary.syntheticExamples =
        (generateTrainingDataset results templates synth options createdAt).summary.totalExamples) := by
  refine ⟨rfl, fun h => ?_⟩
  have him : options.includeMetadata.getD true = true := by
    cases hq : options.includeMetadata with
    | none => rfl
    | some b =>
      cases b
      · exact absurd hq h
      · rfl
  simp only [generateTrainingDataset, him]
  by_cases h1 : options.includeOriginalTranscriptions.getD true <;>
    by_cases h2 : options.includeSyntheticScripts.getD true && !synth.isEmpty <;>
    simp [h1, h2, List.filter_append, filter_map_original_count,
      filter_map_original_synth_count, filter_map_synthetic_count,
      filter_map_synthetic_orig_count]

/-- C2: counterexample.  The topic the extractor derives for an original
example ("general advice" here) is recorded in that example's metadata but
never added to `summary.topics`, which stays empty: the summary's topics
are not the distinct topic values observed across the examples. -/
theorem generate_topics_claim_counterexample :
    (generateTrainingDataset [sampleResult] [] [] {} "t").summary.topics = [] ∧
    (generateTrainingDataset [sampleResult] [] [] {} "t").examples.map
      (fun e => e.metadata.map (fun md => md.topic)) = [some (some "general advice")] := by
  decide

/-- C2 (amended): `summary.platforms` and `summary.topics` contain no
duplicates; `summary.platforms` is exactly the distinct platform values of
the filtered transcription results when original transcriptions are
included (otherwise empty), and `summary.topics` is exactly the distinct
topics of the supplied synthetic scripts when synthetic scripts are
included (otherwise empty) - the topics derived for original examples are
not among them. -/
theorem generate_platforms_topics (results : List TranscriptionResult)
    (templates : List ScriptTemplate) (synth : List SyntheticScript)
    (options : ExportOptions) (createdAt : String) :
    (generateTrainingDataset results templates synth options createdAt).summary.platforms.Nodup ∧
    (generateTrainingDataset results templates synth options createdAt).summary.topics.Nodup ∧
    (∀ p, p ∈ (generateTrainingDataset results templates synth options
        createdAt).summary.platforms ↔
      options.includeOriginalTranscriptions.getD true = true ∧
      p ∈ (filterValidTranscriptions results (options.minViewCount.getD 0)).map
        (fun r => r.platform)) ∧
    (∀ s, s ∈ (generateTrainingDataset results templates synth options createdAt).summary.topics ↔
      (options.includeSyntheticScripts.getD true && !synth.isEmpty) = true ∧
      s ∈ synth.map (fun sc => sc.topic)) := by
  refine ⟨?_, ?_, ?_, ?_⟩
  · show (if options.includeOriginalTranscriptions.getD true then
        (filterValidTranscriptions results (options.minViewCount.getD 0)).foldl
          (fun acc r => setAdd acc r.platform) []
      else []).Nodup
    by_cases h1 : options.includeOriginalTranscriptions.getD true <;> simp [h1]
    exact foldl_setAdd_nodup _ _ _ List.nodup_nil
  · show (if options.includeSyntheticScripts.getD true && !synth.isEmpty then
        synth.foldl (fun acc s => setAdd acc s.topic) []
      else []).Nodup
    by_cases h2 : options.includeSyntheticScripts.getD true && !synth.isEmpty <;> simp [h2]
    exact foldl_setAdd_nodup _ _ _ List.nodup_nil
  · intro p
    show p ∈ (if options.includeOriginalTranscriptions.getD true then
        (filterValidTranscriptions results (options.minViewCount.getD 0)).foldl
          (fun acc r => setAdd acc r.platform) []
      else []) ↔ _
    by_cases h1 : options.includeOriginalTranscriptions.getD true <;>
      simp [h1, mem_foldl_setAdd]
  · intro s
    show s ∈ (if options.includeSyntheticScripts.getD true && !synth.isEmpty then
        synth.foldl (fun acc sc => setAdd acc sc.topic) []
      else []) ↔ _
    by_cases h2 : options.includeSyntheticScripts.getD true && !synth.isEmpty <;>
      simp [h2, mem_foldl_setAdd]

/-- C4: counterexample.  On "Here's how to build a workout routine for
beginners" the token "workout" also contains the productivity seed keyword
"work", so productivity and fitness tie at score 1 and the tie keeps the
earlier taxonomy entry: the extractor returns "productivity", not
"fitness". -/
theorem extract_topic_claim_counterexample :
    extractTopicFromContent "Here's how to build a workout routine for beginners" =
      "productivity" ∧ ("productivity" : String) ≠ "fitness" := by
  decide

/-- C4 (amended): extractTopicFromContent maps "Here's how to build a
workout routine for beginners" to "productivity" (tie between productivity
and fitness, resolved to the topic iterated first) and "asdf qwer zxcv" to
"general advice"; as a pure function it returns the same value on every
call. -/
theorem extract_topic_values :
    extractTopicFromContent "Here's how to build a workout routine for beginners" =
      "productivity" ∧
    extractTopicFromContent "asdf qwer zxcv" = "general advice" := by
  decide

/-- The view-count samples claim C7 says contribute to `avgViewCount`:
every filtered successful result whose metadata carries a `viewCount`
field, the value 0 included. -/
def claimViewSamples (results : List TranscriptionResult) (options : ExportOptions) : List Nat :=
  (filterValidTranscriptions results (options.minViewCount.getD 0)).filterMap
    (fun r => r.metadata.bind (fun md => md.viewCount))

/-- The like-count samples claim C7 says contribute to `avgLikeCount`. -/
def claimLikeSamples (results : List TranscriptionResult) (options : ExportOptions) : List Nat :=
  (filterValidTranscriptions results (options.minViewCount.getD 0)).filterMap
    (fun r => r.metadata.bind (fun md => md.likeCount))

/-- The integer-rounded mean of the samples, undefined when no sample
contributes - the claim's description of the averages. -/
def claimAvg (samples : List Nat) : Option Nat :=
  if samples.length > 0 then some (jsRoundDiv samples.sum samples.length) else none

/-- The view-count samples the code actually admits: only truthy
(present and nonzero) values pass `if (result.metadata?.viewCount)`. -/
def truthyViewSamples (results : List TranscriptionResult) (options : ExportOptions) :
    List Nat :=
  (claimViewSamples results options).filter (fun v => v != 0)

/-- The like-count samples the code actually admits (nonzero only). -/
def truthyLikeSamples (results : List TranscriptionResult) (options : ExportOptions) :
    List Nat :=
  (claimLikeSamples results options).filter (fun v => v != 0)

/-- A successful transcription result whose metadata carries viewCount 0. -/
def zeroViewResult : TranscriptionResult :=
  { videoId := "v2", videoUrl := "u2", platform := "tiktok", transcription := "a b c d",
    marketingSegments := some ⟨"a", "b", "c", "d"⟩, wordAssignments := none,
    processingTime := 5, success := true, error := none,
    metadata := some {
      viewCount := some 0,
      likeCount := none,
      quality := none,
      fileSize := none } }

/-- C7: counterexample.  A result carrying `viewCount = 0` is a sample
under the claim (mean 0 over one sample), but JavaScript truthiness
excludes it: the code leaves `avgViewCount` undefined. -/
theorem avg_view_claim_counterexample :
    claimAvg (claimViewSamples [zeroViewResult] {}) = some 0 ∧
    (generateTrainingDataset [zeroViewResult] [] [] {} "t").summary.avgViewCount = none := by
  decide

/-- C7 (amended): when original transcriptions are included (the default),
`avgViewCount` is the integer-rounded mean of `viewCount` over exactly the
filtered successful results whose metadata carries a nonzero `viewCount`
(a missing field and the value 0 both contribute nothing), and it is
undefined when no result qualifies; likewise `avgLikeCount`. -/
theorem avg_counts_truthy (results : List TranscriptionResult)
    (templates : List ScriptTemplate) (synth : List SyntheticScript)
    (options : ExportOptions) (createdAt : String)
    (h : options.includeOriginalTranscriptions ≠ some false) :
    (generateTrainingDataset results templates synth options createdAt).summary.avgViewCount =
      claimAvg (truthyViewSamples results options) ∧
    (generateTrainingDataset results templates synth options createdAt).summary.avgLikeCount =
      claimAvg (truthyLikeSamples results options) := by
  have hio : options.includeOriginalTranscriptions.getD true = true := by
    cases hq : options.includeOriginalTranscriptions with
    | none => rfl
    | some b =>
      cases b
      · exact absurd hq h
      · rfl
  constructor <;>
    simp [generateTrainingDataset, hio, claimAvg, truthyViewSamples, truthyLikeSamples,
      claimViewSamples, claimLikeSamples]

/-- C7 (amended) witness: the amended theorem at one concrete result with
viewCount 1000 and likeCount 10. -/
theorem avg_counts_truthy_witness :
    ((generateTrainingDataset [sampleResult] [] [] {} "t").summary.avgViewCount =
      claimAvg (truthyViewSamples [sampleResult] {}) ∧
    (generateTrainingDataset [sampleResult] [] [] {} "t").summary.avgLikeCount =
      claimAvg (truthyLikeSamples [sampleResult] {})) ∧
    (generateTrainingDataset [sampleResult] [] [] {} "t").summary.avgViewCount = some 1000 :=
  ⟨avg_counts_truthy [sampleResult] [] [] {} "t" (by decide), by decide⟩

/-- C10: the dataset's examples and summary are independent of the
`templates` argument (and of the clock stamp): `createSyntheticTrainingExample`
never reads its template parameter, so any two template lists produce
identical examples and identical summary. -/
theorem dataset_independent_of_templates (results : List TranscriptionResult)
    (t1 t2 : List ScriptTemplate) (synth : List SyntheticScript)
    (options : ExportOptions) (c1 c2 : String) :
    (generateTrainingDataset results t1 synth options c1).examples =
      (generateTrainingDataset results t2 synth options c2).examples ∧
    (generateTrainingDataset results t1 synth options c1).summary =
      (generateTrainingDataset results t2 synth options c2).summary :=
  ⟨rfl, rfl⟩

/-- C1 (amended) witness: the amended sum at one concrete valid result with
the default options. -/
theorem generate_totalExamples_and_counts_witness :
    (generateTrainingDataset [sampleResult] [] [] {} "t").summary.originalExamples +
      (generateTrainingDataset [sampleResult] [] [] {} "t").summary.syntheticExamples =
      (generateTrainingDataset [sampleResult] [] [] {} "t").summary.totalExamples ∧
    (generateTrainingDataset [sampleResult] [] [] {} "t").summary.totalExamples = 1 :=
  ⟨(generate_totalExamples_and_counts [sampleResult] [] [] {} "t").2 (by decide), by decide⟩

/-- The length-statistics block of validateDataset's report (lines 403-410).
On an empty dataset JavaScript yields NaN averages and infinite minima; no
claim touches the statistics, and the embedding uses the natural-number
conventions 0/0 = 0 and min/max of the empty list = 0. -/
structure ValidationStats where
  avgInputLength : Nat
  avgOutputLength : Nat
  minInputLength : Nat
  maxInputLength : Nat
  minOutputLength : Nat
  maxOutputLength : Nat
deriving DecidableEq

/-- Return shape of validateDataset (lines 399-411). -/
structure ValidationReport where
  valid : Bool
  errors : List String
  warnings : List String
  stats : ValidationStats
deriving DecidableEq

/-- Minimum of a length list, as `Math.min(...lengths)` on a nonempty list. -/
def listMin : List Nat → Nat
  | [] => 0
  | h :: t => t.foldl min h

/-- Maximum of a length list, as `Math.max(...lengths)` on a nonempty list. -/
def listMax : List Nat → Nat
  | [] => 0
  | h :: t => t.foldl max h

/-- TrainingDataExporter.validateDataset (lines 399-463): one aggregated
error for empty inputs/outputs; advisory warnings for a small dataset and
for long/short examples, in the source's push order (size first, then long
inputs, long outputs, short outputs); `valid` is true exactly when there is
no error. -/
def validateDataset (dataset : TrainingDataset) : ValidationReport :=
  let sizeWarnings :=
    if dataset.examples.length < 10 then
      ["Dataset has only " ++ Nat.repr dataset.examples.length ++
        " examples. Recommended minimum is 10 for fine-tuning."]
    else []
  let emptyExamples := dataset.examples.filter (fun e =>
    strTrim e.input == "" || strTrim e.output == "")
  let errors :=
    if emptyExamples.length > 0 then
      ["Found " ++ Nat.repr emptyExamples.length ++ " examples with empty input or output."]
    else []
  let inputLengths := dataset.examples.map (fun e => e.input.length)
  let outputLengths := dataset.examples.map (fun e => e.output.length)
  let stats : ValidationStats := {
    avgInputLength := jsRoundDiv inputLengths.sum inputLengths.length,
    avgOutputLength := jsRoundDiv outputLengths.sum outputLengths.length,
    minInputLength := listMin inputLengths,
    maxInputLength := listMax inputLengths,
    minOutputLength := listMin outputLengths,
    maxOutputLength := listMax outputLengths }
  let longInputs := dataset.examples.filter (fun e => e.input.length > 2000)
  let longOutputs := dataset.examples.filter (fun e => e.output.length > 4000)
  let longInputWarnings :=
    if longInputs.length > 0 then
      [Nat.repr longInputs.length ++
        " examples have very long inputs (>2000 chars). Consider shortening."]
    else []
  let longOutputWarnings :=
    if longOutputs.length > 0 then
      [Nat.repr longOutputs.length ++
        " examples have very long outputs (>4000 chars). Consider shortening."]
    else []
  let shortOutputs := dataset.examples.filter (fun e => e.output.length < 50)
  let shortOutputWarnings :=
    if shortOutputs.length > 0 then
      [Nat.repr shortOutputs.length ++
        " examples have very short outputs (<50 chars). Consider adding more detail."]
    else []
  { valid := errors.length == 0,
    errors := errors,
    warnings := sizeWarnings ++ longInputWarnings ++ longOutputWarnings ++ shortOutputWarnings,
    stats := stats }

/-- A valid 10-example dataset: inputs "x", outputs 60 characters long. -/
def c6Base : TrainingDataset :=
  { examples := List.replicate 10
      { input := "x",
        output := "aaaaaaaaaaaaaaaaaaaaaaaaaaaaaaaaaaaaaaaaaaaaaaaaaaaaaaaaaaaa",
        metadata := none },
    summary := {
      totalExamples := 10,
      originalExamples := 10,
      syntheticExamples := 0,
      platforms := [],
      topics := [],
      avgViewCount := none,
      avgLikeCount := none },
    metadata := { createdAt := "t", description := "d" } }

/-- c6Base with one appended example whose output is empty. -/
def c6Appended : TrainingDataset :=
  { c6Base with examples := c6Base.examples ++ [{ input := "x", output := "", metadata := none }] }

/-- C6: counterexample.  Appending an empty-output example to a valid
dataset does flip `valid` and add exactly one error, but it also adds a
new "very short outputs" warning (the empty output is shorter than 50
characters), so the warnings list does not stay unchanged. -/
theorem validator_warnings_claim_counterexample :
    (validateDataset c6Base).valid = true ∧
    (validateDataset c6Appended).valid = false ∧
    (validateDataset c6Appended).errors.length = (validateDataset c6Base).errors.length + 1 ∧
    (validateDataset c6Appended).warnings ≠ (validateDataset c6Base).warnings := by
  decide

/-- C6 (amended): appending one example with whitespace-only output and
non-blank input to a dataset on which validateDataset returns valid=true
yields valid=false with errors.length greater by exactly 1 (the warnings
list may change: the appended example can trigger the short-output warning
and alter the dataset-size warning). -/
theorem validator_empty_output_error (ds : TrainingDataset) (ex : TrainingExample)
    (hvalid : (validateDataset ds).valid = true)
    (hout : strTrim ex.output = "") :
    (validateDataset { ds with examples := ds.examples ++ [ex] }).valid = false ∧
    (validateDataset { ds with examples := ds.examples ++ [ex] }).errors.length =
      (validateDataset ds).errors.length + 1 := by
  have hOld : ds.examples.filter (fun e => strTrim e.input == "" || strTrim e.output == "") = [] := by
    by_cases hgt : 0 < (ds.examples.filter (fun e =>
        strTrim e.input == "" || strTrim e.output == "")).length
    · exfalso
      have hfalse : (validateDataset ds).valid = false := by
        simp [validateDataset, hgt]
      rw [hfalse] at hvalid
      exact Bool.false_ne_true hvalid
    · exact List.length_eq_zero.mp (Nat.eq_zero_of_not_pos hgt)
  have hex : (strTrim ex.input == "" || strTrim ex.output == "") = true := by
    simp [hout]
  constructor <;> simp [validateDataset, List.filter_append, hOld, hex]

/-- C6 (amended) witness: the amended theorem at the concrete valid
dataset. -/
theorem validator_empty_output_error_witness :
    (validateDataset { c6Base with
      examples := c6Base.examples ++ [{ input := "x", output := "", metadata := none }] }).valid =
      false ∧
    (validateDataset { c6Base with
      examples := c6Base.examples ++ [{ input := "x", output := "", metadata := none }] }).errors.length =
      (validateDataset c6Base).errors.length + 1 :=
  validator_empty_output_error c6Base { input := "x", output := "", metadata := none }
    (by decide) (by decide)

mutual
/-- A JSON value of the shapes `JSON.stringify` emits for a training
example: strings, non-negative integers, booleans and objects (the
exporter emits no arrays, no null and no fractional or negative numbers). -/
inductive JsonVal where
  | str (s : String)
  | num (n : Nat)
  | bool (b : Bool)
  | obj (fields : JsonFields)
deriving DecidableEq
/-- The ordered field list of a JSON object (JavaScript objects preserve
insertion order, which JSON.stringify follows). -/
inductive JsonFields where
  | nil
  | cons (key : String) (value : JsonVal) (rest : JsonFields)
deriving DecidableEq
end

/-- Lowercase hexadecimal digit, as JSON.stringify uses in escapes. -/
def hexDigitChar (n : Nat) : Char :=
  if n < 10 then Char.ofNat (48 + n) else Char.ofNat (87 + n)

/-- JSON.stringify's escaping of one character: quote and backslash get a
two-character escape, the five named control characters get theirs, any
other control character becomes a \u00xx escape, and everything else is
kept verbatim. -/
def encodeJsonChar (c : Char) : List Char :=
  if c = '"' then ['\\', '"']
  else if c = '\\' then ['\\', '\\']
  else if c = '\x08' then ['\\', 'b']
  else if c = '\x0c' then ['\\', 'f']
  else if c = '\n' then ['\\', 'n']
  else if c = '\r' then ['\\', 'r']
  else if c = '\t' then ['\\', 't']
  else if c.toNat < 32 then
    ['\\', 'u', '0', '0', hexDigitChar (c.toNat / 16), hexDigitChar (c.toNat % 16)]
  else [c]

/-- A JSON string literal: quote, escaped characters, quote. -/
def encodeJsonString (s : String) : List Char :=
  '"' :: (s.data.map encodeJsonChar).flatten ++ ['"']

/-- Decimal digit character. -/
def digitChar10 (n : Nat) : Char := Char.ofNat (48 + n)

/-- Fueled digit expansion; the fuel only has to exceed the number. -/
def natDecDigitsAux : Nat → Nat → List Char
  | 0, _ => []
  | fuel + 1, n =>
    if n < 10 then [digitChar10 n]
    else natDecDigitsAux fuel (n / 10) ++ [digitChar10 (n % 10)]

/-- Decimal digits of a natural number, most significant first, as
JSON.stringify renders a non-negative integer. -/
def natDecDigits (n : Nat) : List Char := natDecDigitsAux (n + 1) n

mutual
/-- Serialize a JSON value without whitespace, as JSON.stringify. -/
def stringifyJsonVal : JsonVal → List Char
  | .str s => encodeJsonString s
  | .num n => natDecDigits n
  | .bool b => if b then "true".data else "false".data
  | .obj fields => '{' :: stringifyJsonFields fields ++ ['}']
/-- Serialize an object's fields, comma-separated. -/
def stringifyJsonFields : JsonFields → List Char
  | .nil => []
  | .cons k v .nil => encodeJsonString k ++ ':' :: stringifyJsonVal v
  | .cons k v (.cons k2 v2 rest) =>
    encodeJsonString k ++ ':' :: stringifyJsonVal v ++
      ',' :: stringifyJsonFields (.cons k2 v2 rest)
end

/-- Value of one hexadecimal digit character. -/
def hexVal (c : Char) : Option Nat :=
  if '0' ≤ c ∧ c ≤ '9' then some (c.toNat - 48)
  else if 'a' ≤ c ∧ c ≤ 'f' then some (c.toNat - 87)
  else if 'A' ≤ c ∧ c ≤ 'F' then some (c.toNat - 55)
  else none

/-- Decode a single-character JSON escape. -/
def escapeChar (c : Char) : Option Char :=
  if c = '"' then some '"'
  else if c = '\\' then some '\\'
  else if c = '/' then some '/'
  else if c = 'b' then some '\x08'
  else if c = 'f' then some '\x0c'
  else if c = 'n' then some '\n'
  else if c = 'r' then some '\r'
  else if c = 't' then some '\t'
  else none

/-- Parse the body of a JSON string literal after its opening quote,
returning the decoded characters and the input after the closing quote. -/
def parseStringBody : List Char → Option (List Char × List Char)
  | [] => none
  | c :: rest =>
    if c = '"' then some ([], rest)
    else if c = '\\' then
      match rest with
      | [] => none
      | e :: rest2 =>
        if e = 'u' then
          match rest2 with
          | h1 :: h2 :: h3 :: h4 :: rest3 =>
            match hexVal h1, hexVal h2, hexVal h3, hexVal h4 with
            | some a, some b, some c2, some d =>
              match parseStringBody rest3 with
              | some (s, r) => some (Char.ofNat (((a * 16 + b) * 16 + c2) * 16 + d) :: s, r)
              | none => none
            | _, _, _, _ => none
          | _ => none
        else
          match escapeChar e with
          | some ec =>
            match parseStringBody rest2 with
            | some (s, r) => some (ec :: s, r)
            | none => none
          | none => none
    else
      match parseStringBody rest with
      | some (s, r) => some (c :: s, r)
      | none => none

/-- Consume a run of decimal digits, accumulating their value. -/
def parseNatAux : List Char → Nat → Nat × List Char
  | [], acc => (acc, [])
  | c :: rest, acc =>
    if c.isDigit then parseNatAux rest (acc * 10 + (c.toNat - 48)) else (acc, c :: rest)

mutual
/-- Parse one JSON value (of the emitted subset) from the input; the fuel
bounds the object-nesting work and only has to exceed the value's size. -/
def parseJsonVal : Nat → List Char → Option (JsonVal × List Char)
  | 0, _ => none
  | _ + 1, [] => none
  | fuel + 1, c :: rest =>
    if c = '"' then
      match parseStringBody rest with
      | some (s, r) => some (.str ⟨s⟩, r)
      | none => none
    else if c.isDigit then
      let p := parseNatAux (c :: rest) 0
      some (.num p.1, p.2)
    else if c = 't' then
      match rest with
      | 'r' :: 'u' :: 'e' :: r => some (.bool true, r)
      | _ => none
    else if c = 'f' then
      match rest with
      | 'a' :: 'l' :: 's' :: 'e' :: r => some (.bool false, r)
      | _ => none
    else if c = '{' then
      match rest with
      | '}' :: r => some (.obj .nil, r)
      | _ =>
        match parseJsonFields fuel rest with
        | some (fs, r) => some (.obj fs, r)
        | none => none
    else none
/-- Parse a nonempty field list and its closing brace. -/
def parseJsonFields : Nat → List Char → Option (JsonFields × List Char)
  | 0, _ => none
  | fuel + 1, l =>
    match l with
    | '"' :: l1 =>
      match parseStringBody l1 with
      | some (k, l2) =>
        match l2 with
        | ':' :: l3 =>
          match parseJsonVal fuel l3 with
          | some (v, l4) =>
            match l4 with
            | ',' :: l5 =>
              match parseJsonFields fuel l5 with
              | some (fs, r) => some (.cons ⟨k⟩ v fs, r)
              | none => none
            | '}' :: l5 => some (.cons ⟨k⟩ v .nil, l5)
            | _ => none
          | none => none
        | _ => none
      | none => none
    | _ => none
end

mutual
/-- Fuel adequate for parsing a value: one unit per value and per field. -/
def jsonFuel : JsonVal → Nat
  | .obj fields => 1 + jsonFieldsFuel fields
  | _ => 1
/-- Fuel adequate for parsing a field list. -/
def jsonFieldsFuel : JsonFields → Nat
  | .nil => 0
  | .cons _ v rest => 1 + jsonFuel v + jsonFieldsFuel rest
end

example : parseJsonVal 10 (stringifyJsonVal (.obj (.cons "a" (.str "x\ny") (.cons "b" (.num 120) (.cons "c" (.bool true) .nil))))) = some ((.obj (.cons "a" (.str "x\ny") (.cons "b" (.num 120) (.cons "c" (.bool true) .nil)))), []) := by decide

theorem hexVal_hexDigitChar (n : Nat) (h : n < 16) : hexVal (hexDigitChar n) = some n := by
  interval_cases n <;> decide

theorem parseStringBody_encode (l : List Char) (rest : List Char) :
    parseStringBody ((l.map encodeJsonChar).flatten ++ '"' :: rest) = some (l, rest) := by
  induction l with
  | nil =>
    rw [List.map_nil, List.flatten_nil, List.nil_append, parseStringBody.eq_def]
    simp
  | cons c t ih =>
    simp only [List.map_cons, List.flatten_cons, List.append_assoc]
    by_cases h1 : c = '"'
    · subst h1
      rw [show encodeJsonChar '"' = ['\\', '"'] from rfl, List.cons_append, List.cons_append,
        List.nil_append, parseStringBody.eq_def]
      simp [escapeChar, ih]
    · by_cases h2 : c = '\\'
      · subst h2
        rw [show encodeJsonChar '\\' = ['\\', '\\'] from rfl, List.cons_append, List.cons_append,
          List.nil_append, parseStringBody.eq_def]
        simp [escapeChar, ih]
      · by_cases h3 : c = '\x08'
        · subst h3
          rw [show encodeJsonChar '\x08' = ['\\', 'b'] from rfl, List.cons_append,
            List.cons_append, List.nil_append, parseStringBody.eq_def]
          simp [escapeChar, ih]
        · by_cases h4 : c = '\x0c'
          · subst h4
            rw [show encodeJsonChar '\x0c' = ['\\', 'f'] from rfl, List.cons_append,
              List.cons_append, List.nil_append, parseStringBody.eq_def]
            simp [escapeChar, ih]
          · by_cases h5 : c = '\n'
            · subst h5
              rw [show encodeJsonChar '\n' = ['\\', 'n'] from rfl, List.cons_append,
                List.cons_append, List.nil_append, parseStringBody.eq_def]
              simp [escapeChar, ih]
            · by_cases h6 : c = '\r'
              · subst h6
                rw [show encodeJsonChar '\r' = ['\\', 'r'] from rfl, List.cons_append,
                  List.cons_append, List.nil_append, parseStringBody.eq_def]
                simp [escapeChar, ih]
              · by_cases h7 : c = '\t'
                · subst h7
                  rw [show encodeJsonChar '\t' = ['\\', 't'] from rfl, List.cons_append,
                    List.cons_append, List.nil_append, parseStringBody.eq_def]
                  simp [escapeChar, ih]
                · by_cases h8 : c.toNat < 32
                  · have hd1 : hexVal (hexDigitChar (c.toNat / 16)) = some (c.toNat / 16) :=
                      hexVal_hexDigitChar _ (by omega)
                    have hd2 : hexVal (hexDigitChar (c.toNat % 16)) = some (c.toNat % 16) :=
                      hexVal_hexDigitChar _ (Nat.mod_lt _ (by omega))
                    have hval : ((0 * 16 + 0) * 16 + c.toNat / 16) * 16 + c.toNat % 16 =
                        c.toNat := by
                      have := Nat.div_add_mod c.toNat 16
                      omega
                    rw [show encodeJsonChar c =
                        ['\\', 'u', '0', '0', hexDigitChar (c.toNat / 16),
                          hexDigitChar (c.toNat % 16)] from by
                      simp only [encodeJsonChar, if_neg h1, if_neg h2, if_neg h3, if_neg h4,
                        if_neg h5, if_neg h6, if_neg h7, if_pos h8]]
                    rw [List.cons_append, List.cons_append, List.cons_append, List.cons_append,
                      List.cons_append, List.cons_append, List.nil_append,
                      parseStringBody.eq_def]
                    simp only [hd1, hd2, ih]
                    rw [show hexVal '0' = some 0 from by decide]
                    have hc : Char.ofNat (c.toNat / 16 * 16 + c.toNat % 16) = c := by
                      rw [show c.toNat / 16 * 16 + c.toNat % 16 = c.toNat from by omega]
                      exact Char.ofNat_toNat c
                    simp [hc]
                  · rw [show encodeJsonChar c = [c] from by
                        simp only [encodeJsonChar, if_neg h1, if_neg h2, if_neg h3, if_neg h4,
                          if_neg h5, if_neg h6, if_neg h7, if_neg h8]]
                    rw [List.cons_append, List.nil_append, parseStringBody.eq_def]
                    simp [h1, h2, ih]

theorem digitChar10_isDigit (n : Nat) (h : n < 10) :
    (digitChar10 n).isDigit = true ∧ (digitChar10 n).toNat - 48 = n := by
  interval_cases n <;> decide

/-- Whether the input does not begin with a decimal digit (so a digit run
ending there is maximal). -/
def headNotDigit : List Char → Bool
  | [] => true
  | c :: _ => !c.isDigit

theorem parseNatAux_nondigit (l : List Char) (acc : Nat) (h : headNotDigit l = true) :
    parseNatAux l acc = (acc, l) := by
  cases l with
  | nil => rfl
  | cons c rest =>
    have hc : c.isDigit = false := by
      simpa [headNotDigit] using h
    rw [parseNatAux.eq_def]
    simp [hc]

theorem parseNatAux_digits (fuel : Nat) :
    ∀ n acc rest, n < fuel →
      parseNatAux (natDecDigitsAux fuel n ++ rest) acc =
        parseNatAux rest (acc * 10 ^ (natDecDigitsAux fuel n).length + n) := by
  induction fuel with
  | zero => omega
  | succ f ih =>
    intro n acc rest hn
    rw [natDecDigitsAux]
    by_cases h10 : n < 10
    · simp only [if_pos h10, List.singleton_append, List.length_singleton]
      have hd := digitChar10_isDigit n h10
      rw [parseNatAux.eq_def]
      simp [hd.1, hd.2]
    · simp only [if_neg h10, List.append_assoc, List.singleton_append,
        List.length_append, List.length_singleton]
      have hstep : n / 10 < f := by omega
      rw [ih (n / 10) acc (digitChar10 (n % 10) :: rest) hstep]
      have hd := digitChar10_isDigit (n % 10) (Nat.mod_lt _ (by omega))
      rw [parseNatAux.eq_def]
      simp only [hd.1, if_pos, hd.2]
      have hmod : n / 10 * 10 + n % 10 = n := by omega
      have key : ∀ la : Nat, (acc * 10 ^ la + n / 10) * 10 + n % 10 =
          acc * 10 ^ (la + 1) + n := by
        intro la
        calc (acc * 10 ^ la + n / 10) * 10 + n % 10
            = acc * (10 ^ la * 10) + (n / 10 * 10 + n % 10) := by ring
          _ = acc * 10 ^ (la + 1) + n := by rw [hmod, Nat.pow_succ]
      rw [key]

theorem parseNat_natDecDigits (n : Nat) (rest : List Char) (h : headNotDigit rest = true) :
    parseNatAux (natDecDigits n ++ rest) 0 = (n, rest) := by
  rw [natDecDigits, parseNatAux_digits (n + 1) n 0 rest (by omega),
    parseNatAux_nondigit _ _ h]
  simp

theorem natDecDigits_head (fuel : Nat) :
    ∀ n, n < fuel → ∃ c tl, natDecDigitsAux fuel n = c :: tl ∧ c.isDigit = true := by
  induction fuel with
  | zero => omega
  | succ f ih =>
    intro n hn
    rw [natDecDigitsAux]
    by_cases h10 : n < 10
    · exact ⟨digitChar10 n, [], by simp [h10], (digitChar10_isDigit n h10).1⟩
    · obtain ⟨c, tl, he, hd⟩ := ih (n / 10) (by omega)
      exact ⟨c, tl ++ [digitChar10 (n % 10)], by simp [h10, he], hd⟩

theorem jsonFuel_pos (j : JsonVal) : 1 ≤ jsonFuel j := by
  cases j <;> simp [jsonFuel]

theorem jsonFieldsFuel_pos (fs : JsonFields) (h : fs ≠ .nil) : 1 ≤ jsonFieldsFuel fs := by
  cases fs with
  | nil => exact absurd rfl h
  | cons k v r => simp [jsonFieldsFuel]; omega


theorem parse_stringify_roundtrip (fuel : Nat) :
    (∀ (j : JsonVal) (rest : List Char), jsonFuel j ≤ fuel → headNotDigit rest = true →
      parseJsonVal fuel (stringifyJsonVal j ++ rest) = some (j, rest)) ∧
    (∀ (fs : JsonFields) (rest : List Char), fs ≠ .nil → jsonFieldsFuel fs ≤ fuel →
      parseJsonFields fuel (stringifyJsonFields fs ++ '}' :: rest) = some (fs, rest)) := by
  induction fuel with
  | zero =>
    constructor
    · intro j rest hf _
      have := jsonFuel_pos j
      omega
    · intro fs rest hne hf
      have := jsonFieldsFuel_pos fs hne
      omega
  | succ f ih =>
    have hstep : ∀ (v : JsonVal) (tail : List Char), jsonFuel v ≤ f →
        headNotDigit tail = true →
        parseJsonVal f (stringifyJsonVal v ++ tail) = some (v, tail) := ih.1
    have hstepf : ∀ (fs : JsonFields) (tail : List Char), fs ≠ .nil →
        jsonFieldsFuel fs ≤ f →
        parseJsonFields f (stringifyJsonFields fs ++ '}' :: tail) = some (fs, tail) := ih.2
    constructor
    · intro j rest hf hrest
      cases j with
      | str s =>
        obtain ⟨l⟩ := s
        show parseJsonVal (f + 1)
          (('"' :: (l.map encodeJsonChar).flatten ++ ['"']) ++ rest) = _
        simp only [List.cons_append, List.append_assoc, List.singleton_append]
        simp only [parseJsonVal]
        simp [parseStringBody_encode]
      | num n =>
        show parseJsonVal (f + 1) (natDecDigits n ++ rest) = _
        obtain ⟨c, tl, he, hd⟩ := natDecDigits_head (n + 1) n (by omega)
        have hnum : parseNatAux (c :: (tl ++ rest)) 0 = (n, rest) := by
          rw [← List.cons_append, ← he]
          exact parseNat_natDecDigits n rest hrest
        have hq : ¬ c = '"' := by
          intro hcq
          rw [hcq] at hd
          exact absurd hd (by decide)
        rw [natDecDigits, he, List.cons_append]
        simp only [parseJsonVal]
        simp [hq, hd, hnum]
      | bool b =>
        cases b with
        | true =>
          show parseJsonVal (f + 1) ("true".data ++ rest) = _
          rw [show ("true".data : List Char) = ['t', 'r', 'u', 'e'] from rfl]
          simp only [List.cons_append, List.singleton_append]
          simp only [parseJsonVal]
          simp
        | false =>
          show parseJsonVal (f + 1) ("false".data ++ rest) = _
          rw [show ("false".data : List Char) = ['f', 'a', 'l', 's', 'e'] from rfl]
          simp only [List.cons_append, List.singleton_append]
          simp only [parseJsonVal]
          simp
      | obj fs =>
        cases fs with
        | nil =>
          show parseJsonVal (f + 1) (('{' :: ([] ++ ['}'])) ++ rest) = _
          simp only [List.nil_append, List.cons_append, List.singleton_append]
          simp only [parseJsonVal]
          simp
        | cons k v r =>
          show parseJsonVal (f + 1)
            (('{' :: stringifyJsonFields (.cons k v r) ++ ['}']) ++ rest) = _
          have hff : jsonFieldsFuel (.cons k v r) ≤ f := by
            have : jsonFuel (.obj (.cons k v r)) = 1 + jsonFieldsFuel (.cons k v r) := rfl
            omega
          have hrec := hstepf (.cons k v r) rest (by intro h; cases h) hff
          obtain ⟨lk⟩ := k
          have hhead : ∃ tl2, stringifyJsonFields (.cons ⟨lk⟩ v r) = '"' :: tl2 := by
            cases r <;> exact ⟨_, rfl⟩
          obtain ⟨tl2, htl2⟩ := hhead
          rw [htl2] at hrec ⊢
          simp only [List.cons_append, List.append_assoc, List.singleton_append] at hrec ⊢
          simp only [parseJsonVal]
          simp [hrec]
    · intro fs rest hne hf
      cases fs with
      | nil => exact absurd rfl hne
      | cons k v r =>
        obtain ⟨lk⟩ := k
        have hv : jsonFuel v ≤ f := by
          have : jsonFieldsFuel (.cons ⟨lk⟩ v r) = 1 + jsonFuel v + jsonFieldsFuel r := rfl
          omega
        cases r with
        | nil =>
          show parseJsonFields (f + 1)
            ((encodeJsonString ⟨lk⟩ ++ ':' :: stringifyJsonVal v) ++ '}' :: rest) = _
          rw [encodeJsonString]
          simp only [List.cons_append, List.append_assoc, List.singleton_append]
          simp only [parseJsonFields]
          rw [parseStringBody_encode]
          have hval := hstep v ('}' :: rest) hv (by simp only [headNotDigit]; decide)
          simp [hval]
        | cons k2 v2 r2 =>
          show parseJsonFields (f + 1)
            ((encodeJsonString ⟨lk⟩ ++ ':' :: stringifyJsonVal v ++
              ',' :: stringifyJsonFields (.cons k2 v2 r2)) ++ '}' :: rest) = _
          rw [encodeJsonString]
          simp only [List.cons_append, List.append_assoc, List.singleton_append]
          simp only [parseJsonFields]
          rw [parseStringBody_encode]
          have hval := hstep v
            (',' :: (stringifyJsonFields (.cons k2 v2 r2) ++ '}' :: rest)) hv
            (by simp only [headNotDigit]; decide)
          have hr : jsonFieldsFuel (.cons k2 v2 r2) ≤ f := by
            have h1 : jsonFieldsFuel (.cons ⟨lk⟩ v (.cons k2 v2 r2)) =
                1 + jsonFuel v + jsonFieldsFuel (.cons k2 v2 r2) := rfl
            have h2 := jsonFuel_pos v
            omega
          have hrest2 := hstepf (.cons k2 v2 r2) rest (by intro h; cases h) hr
          simp only [List.cons_append, List.append_assoc] at hval ⊢
          simp [hval, hrest2]

theorem encodeJsonString_length (s : String) : 2 ≤ (encodeJsonString s).length := by
  simp [encodeJsonString]

mutual
theorem jsonFuel_le_stringify : (j : JsonVal) → jsonFuel j ≤ (stringifyJsonVal j).length
  | .str s => by
    have := encodeJsonString_length s
    simpa [jsonFuel, stringifyJsonVal] using by omega
  | .num n => by
    obtain ⟨c, tl, he, _⟩ := natDecDigits_head (n + 1) n (by omega)
    simp [jsonFuel, stringifyJsonVal, natDecDigits, he]
  | .bool b => by cases b <;> simp [jsonFuel, stringifyJsonVal]
  | .obj fs => by
    have h := jsonFieldsFuel_le_stringify fs
    simp only [jsonFuel, stringifyJsonVal, List.length_cons, List.length_append,
      List.length_singleton]
    omega
theorem jsonFieldsFuel_le_stringify :
    (fs : JsonFields) → jsonFieldsFuel fs ≤ (stringifyJsonFields fs).length
  | .nil => by simp [jsonFieldsFuel, stringifyJsonFields]
  | .cons k v .nil => by
    have hv := jsonFuel_le_stringify v
    have hk := encodeJsonString_length k
    simp only [jsonFieldsFuel, stringifyJsonFields, List.length_append, List.length_cons]
    omega
  | .cons k v (.cons k2 v2 r) => by
    have hv := jsonFuel_le_stringify v
    have hr := jsonFieldsFuel_le_stringify (.cons k2 v2 r)
    have hk := encodeJsonString_length k
    have hd : jsonFieldsFuel (.cons k2 v2 r) = 1 + jsonFuel v2 + jsonFieldsFuel r := rfl
    simp only [jsonFieldsFuel, stringifyJsonFields, List.length_append, List.length_cons]
    omega
end

theorem hexDigitChar_ne_nl (n : Nat) (h : n < 16) : hexDigitChar n ≠ '\n' := by
  interval_cases n <;> decide

theorem encodeJsonChar_no_nl (c : Char) : '\n' ∉ encodeJsonChar c := by
  unfold encodeJsonChar
  split_ifs with h1 h2 h3 h4 h5 h6 h7 h8
  · decide
  · decide
  · decide
  · decide
  · decide
  · decide
  · decide
  · intro hmem
    have hd1 := hexDigitChar_ne_nl (c.toNat / 16) (by omega)
    have hd2 := hexDigitChar_ne_nl (c.toNat % 16) (Nat.mod_lt _ (by omega))
    simp only [List.mem_cons, List.not_mem_nil, or_false] at hmem
    rcases hmem with h | h | h | h | h | h <;> first
      | exact absurd h (by decide)
      | exact hd1 h.symm
      | exact hd2 h.symm
  · intro hmem
    simp only [List.mem_singleton] at hmem
    exact h5 hmem.symm

theorem encodeJsonString_no_nl (s : String) : '\n' ∉ encodeJsonString s := by
  simp only [encodeJsonString]
  intro hmem
  rcases List.mem_cons.mp hmem with h | h
  · exact absurd h (by decide)
  · rcases List.mem_append.mp h with h2 | h2
    · obtain ⟨l2, hl2, hm⟩ := List.mem_flatten.mp h2
      obtain ⟨c, _, rfl⟩ := List.mem_map.mp hl2
      exact encodeJsonChar_no_nl c hm
    · simp at h2

theorem digitChar10_ne_nl (n : Nat) (h : n < 10) : digitChar10 n ≠ '\n' := by
  interval_cases n <;> decide

theorem natDecDigitsAux_no_nl (fuel : Nat) : ∀ n, '\n' ∉ natDecDigitsAux fuel n := by
  induction fuel with
  | zero =>
    intro n
    simp [natDecDigitsAux]
  | succ f ih =>
    intro n
    rw [natDecDigitsAux]
    by_cases h10 : n < 10
    · simp only [if_pos h10, List.mem_singleton]
      intro h
      exact digitChar10_ne_nl n h10 h.symm
    · simp only [if_neg h10]
      intro h
      rcases List.mem_append.mp h with h2 | h2
      · exact ih (n / 10) h2
      · simp only [List.mem_singleton] at h2
        exact digitChar10_ne_nl (n % 10) (Nat.mod_lt _ (by omega)) h2.symm

mutual
theorem stringifyJsonVal_no_nl : (j : JsonVal) → '\n' ∉ stringifyJsonVal j
  | .str s => encodeJsonString_no_nl s
  | .num n => natDecDigitsAux_no_nl (n + 1) n
  | .bool b => by cases b <;> decide
  | .obj fs => by
    intro h
    simp only [stringifyJsonVal] at h
    rcases List.mem_cons.mp h with h2 | h2
    · exact absurd h2 (by decide)
    · rcases List.mem_append.mp h2 with h3 | h3
      · exact stringifyJsonFields_no_nl fs h3
      · simp at h3
theorem stringifyJsonFields_no_nl : (fs : JsonFields) → '\n' ∉ stringifyJsonFields fs
  | .nil => by simp [stringifyJsonFields]
  | .cons k v .nil => by
    intro h
    simp only [stringifyJsonFields, List.mem_append, List.mem_cons] at h
    rcases h with h | h | h
    · exact encodeJsonString_no_nl k h
    · exact absurd h (by decide)
    · exact stringifyJsonVal_no_nl v h
  | .cons k v (.cons k2 v2 r) => by
    intro h
    simp only [stringifyJsonFields, List.mem_append, List.mem_cons] at h
    rcases h with (h | h | h) | h | h
    · exact encodeJsonString_no_nl k h
    · exact absurd h (by decide)
    · exact stringifyJsonVal_no_nl v h
    · exact absurd h (by decide)
    · exact stringifyJsonFields_no_nl (.cons k2 v2 r) h
end

/-- Cons a field only when the optional value is present, modelling
JSON.stringify's omission of undefined object properties. -/
def optJsonField (key : String) (v : Option JsonVal) (rest : JsonFields) : JsonFields :=
  match v with
  | some j => .cons key j rest
  | none => rest

/-- The JSON object JSON.stringify produces for a TrainingExample metadata
record, in the property order of the object literals at lines 186-195 and
293-297 (absent optional properties omitted). -/
def metadataJson (md : ExampleMetadata) : JsonVal :=
  .obj (.cons "source" (.str md.source)
    (optJsonField "videoId" (md.videoId.map .str)
      (optJsonField "platform" (md.platform.map .str)
        (optJsonField "viewCount" (md.viewCount.map .num)
          (optJsonField "likeCount" (md.likeCount.map .num)
            (optJsonField "topic" (md.topic.map .str)
              (optJsonField "templateUsed" (md.templateUsed.map .bool)
                (optJsonField "processingTime" (md.processingTime.map .num) .nil))))))))

/-- The object built per example at lines 346-350: input, output, and the
metadata key exactly when metadata inclusion is requested and the example
has metadata. -/
def exportExampleJson (includeMetadata : Bool) (e : TrainingExample) : JsonVal :=
  .obj (.cons "input" (.str e.input)
    (.cons "output" (.str e.output)
      (match includeMetadata, e.metadata with
        | true, some md => .cons "metadata" (metadataJson md) .nil
        | _, _ => .nil)))

/-- One JSONL line: `JSON.stringify(exportExample)`. -/
def exportLine (includeMetadata : Bool) (e : TrainingExample) : String :=
  ⟨stringifyJsonVal (exportExampleJson includeMetadata e)⟩

/-- TrainingDataExporter.exportToJSONL (lines 343-354): stringify each
example's export object and join the lines with newlines, in examples
order (the source's `includeMetadata` parameter defaults to false). -/
def exportToJSONL (dataset : TrainingDataset) (includeMetadata : Bool) : String :=
  String.intercalate "\n" (dataset.examples.map (fun e => exportLine includeMetadata e))

/-- Field lookup in a parsed JSON object (first occurrence wins). -/
def jsonObjGet : JsonFields → String → Option JsonVal
  | .nil, _ => none
  | .cons k v rest, key => if k = key then some v else jsonObjGet rest key

/-- C9: exportToJSONL produces one JSON object per line in examples order -
the output is the newline-join of the per-example lines and no line
contains a newline itself - and parsing each line back as JSON yields an
object whose input and output fields exactly equal those of the
corresponding example, with a metadata field present exactly when metadata
inclusion is requested and the example has metadata. -/
theorem exportToJSONL_roundtrip (dataset : TrainingDataset) (includeMetadata : Bool) :
    exportToJSONL dataset includeMetadata =
      String.intercalate "\n"
        (dataset.examples.map (fun e => exportLine includeMetadata e)) ∧
    ∀ e ∈ dataset.examples,
      ('\n' ∉ (exportLine includeMetadata e).data) ∧
      ∃ fs : JsonFields,
        parseJsonVal (exportLine includeMetadata e).data.length
            (exportLine includeMetadata e).data = some (.obj fs, []) ∧
        jsonObjGet fs "input" = some (.str e.input) ∧
        jsonObjGet fs "output" = some (.str e.output) ∧
        (jsonObjGet fs "metadata").isSome = (includeMetadata && e.metadata.isSome) := by
  refine ⟨rfl, fun e _ => ⟨stringifyJsonVal_no_nl _, ?_⟩⟩
  cases hb : includeMetadata with
  | false =>
    cases hm : e.metadata with
    | none =>
      have hline : exportLine false e = ⟨stringifyJsonVal (.obj (.cons "input" (.str e.input) (.cons "output" (.str e.output) .nil)))⟩ := by
        simp only [exportLine, exportExampleJson, hm]
      have hp := (parse_stringify_roundtrip
        (exportLine false e).data.length).1 (exportExampleJson false e)
        [] (jsonFuel_le_stringify _) rfl
      rw [List.append_nil] at hp
      simp only [exportExampleJson, hm] at hp
      refine ⟨.cons "input" (.str e.input) (.cons "output" (.str e.output) .nil), ?_, rfl, rfl, ?_⟩
      · rw [hline] at hp ⊢
        exact hp
      · simp [jsonObjGet, hm]
    | some md =>
      have hline : exportLine false e = ⟨stringifyJsonVal (.obj (.cons "input" (.str e.input) (.cons "output" (.str e.output) .nil)))⟩ := by
        simp only [exportLine, exportExampleJson, hm]
      have hp := (parse_stringify_roundtrip
        (exportLine false e).data.length).1 (exportExampleJson false e)
        [] (jsonFuel_le_stringify _) rfl
      rw [List.append_nil] at hp
      simp only [exportExampleJson, hm] at hp
      refine ⟨.cons "input" (.str e.input) (.cons "output" (.str e.output) .nil), ?_, rfl, rfl, ?_⟩
      · rw [hline] at hp ⊢
        exact hp
      · simp [jsonObjGet, hm]
  | true =>
    cases hm : e.metadata with
    | none =>
      have hline : exportLine true e = ⟨stringifyJsonVal (.obj (.cons "input" (.str e.input) (.cons "output" (.str e.output) .nil)))⟩ := by
        simp only [exportLine, exportExampleJson, hm]
      have hp := (parse_stringify_roundtrip
        (exportLine true e).data.length).1 (exportExampleJson true e)
        [] (jsonFuel_le_stringify _) rfl
      rw [List.append_nil] at hp
      simp only [exportExampleJson, hm] at hp
      refine ⟨.cons "input" (.str e.input) (.cons "output" (.str e.output) .nil), ?_, rfl, rfl, ?_⟩
      · rw [hline] at hp ⊢
        exact hp
      · simp [jsonObjGet, hm]
    | some md =>
      have hline : exportLine true e = ⟨stringifyJsonVal (.obj (.cons "input" (.str e.input)
        (.cons "output" (.str e.output) (.cons "metadata" (metadataJson md) .nil))))⟩ := by
        simp only [exportLine, exportExampleJson, hm]
      have hp := (parse_stringify_roundtrip
        (exportLine true e).data.length).1 (exportExampleJson true e)
        [] (jsonFuel_le_stringify _) rfl
      rw [List.append_nil] at hp
      simp only [exportExampleJson, hm] at hp
      refine ⟨.cons "input" (.str e.input)
        (.cons "output" (.str e.output) (.cons "metadata" (metadataJson md) .nil)), ?_, rfl, rfl, ?_⟩
      · rw [hline] at hp ⊢
        exact hp
      · simp [jsonObjGet, hm]

set_option maxRecDepth 4096 in
/-- C9 witness: the serialized line of one concrete example with metadata
requested, evaluated end to end, and the parse of that line. -/
theorem exportToJSONL_roundtrip_witness :
    exportToJSONL
      { examples := [{
          input := "a",
          output := "b c",
          metadata := some {
            source := "original",
            videoId := some "v1",
            platform := some "tiktok",
            viewCount := some 120,
            likeCount := none,
            topic := some "general advice",
            templateUsed := some false,
            processingTime := some 7 } }],
        summary := {
          totalExamples := 1,
          originalExamples := 1,
          syntheticExamples := 0,
          platforms := ["tiktok"],
          topics := [],
          avgViewCount := some 120,
          avgLikeCount := none },
        metadata := { createdAt := "t", description := "d" } } true =
      "\x7b\"input\":\"a\",\"output\":\"b c\",\"metadata\":\x7b\"source\":\"original\",\"videoId\":\"v1\",\"platform\":\"tiktok\",\"viewCount\":120,\"topic\":\"general advice\",\"templateUsed\":false,\"processingTime\":7\x7d\x7d" ∧
    parseJsonVal 40
      "\x7b\"input\":\"a\",\"output\":\"b\"\x7d".data =
      some (.obj (.cons "input" (.str "a") (.cons "output" (.str "b") .nil)), []) := by
  decide
